import Mathlib

/-!
Shallow embedding of `checker.py` (Analogue Pocket firmware update checker).

The embedded code is:
  * `Event` — the ad-hoc observer mechanism (`__iadd__` registration list and
    `__call__` delivery loop).  A handler is modelled as a function from the
    payload to `Bool`: `true` means the callback returns normally, `false`
    means it raises.  `Event.__call__` is a plain `for` loop with no
    exception handling, so delivery stops at the first raising handler and
    the exception propagates.
  * `Parse` — the `HTMLParser` subclass.  The stdlib tokenizer is treated as
    an external collaborator: the embedded functions receive the stream of
    start tags (tag name together with its attribute list, attribute values
    being `Option String` since the stdlib reports valueless attributes as
    `None`).  `handle_starttag` is translated directly; note that
    `link.startswith("http")` raises `AttributeError` when the attribute
    value is `None`, which the embedding records as a `false` second
    component.
  * `ApUpdateChecker.check_fw` — the poll/compare/notify cycle.  `requests.get`
    is abstracted as the `status`/`content` arguments, `hashlib.sha256(...)
    .hexdigest()` as the `hashFn` parameter, `datetime.now()` as `now`, and
    the stdlib HTML tokenization as the `tokenize` parameter.
    `bytes.decode("utf8")` is embedded as a genuine strict UTF-8 decoder over
    the byte list.
-/

namespace ApChecker

/-- Bytes of a fetched body, each in `0..255`. -/
abbrev Bytes := List Nat

/-- An HTML attribute as reported by the stdlib tokenizer: name and optional
value (`none` for a valueless attribute such as `<a href>`). -/
abbrev Attr := String × Option String

/-- A start tag as reported by the stdlib tokenizer: lowercased tag name and
attribute list, in document order. -/
abbrev Tag := String × List Attr

/-- Strict UTF-8 decoding of a byte list into a code-point list, as performed
by Python `bytes.decode("utf8")`: rejects stray continuation bytes, overlong
encodings, surrogates and code points above `0x10FFFF`.  `Except.error ()`
models a raised `UnicodeDecodeError`. -/
def utf8DecodeAux : Bytes → Except Unit (List Char)
  | [] => Except.ok []
  | b :: rest =>
    if b < 0x80 then
      (utf8DecodeAux rest).map (fun cs => Char.ofNat b :: cs)
    else if 0xC2 ≤ b ∧ b ≤ 0xDF then
      match rest with
      | b2 :: rest2 =>
        if 0x80 ≤ b2 ∧ b2 ≤ 0xBF then
          (utf8DecodeAux rest2).map
            (fun cs => Char.ofNat ((b - 0xC0) * 0x40 + (b2 - 0x80)) :: cs)
        else Except.error ()
      | [] => Except.error ()
    else if 0xE0 ≤ b ∧ b ≤ 0xEF then
      match rest with
      | b2 :: b3 :: rest3 =>
        if (if b = 0xE0 then 0xA0 else 0x80) ≤ b2 ∧
            b2 ≤ (if b = 0xED then 0x9F else 0xBF) ∧
            0x80 ≤ b3 ∧ b3 ≤ 0xBF then
          (utf8DecodeAux rest3).map
            (fun cs =>
              Char.ofNat ((b - 0xE0) * 0x1000 + (b2 - 0x80) * 0x40 + (b3 - 0x80)) :: cs)
        else Except.error ()
      | _ => Except.error ()
    else if 0xF0 ≤ b ∧ b ≤ 0xF4 then
      match rest with
      | b2 :: b3 :: b4 :: rest4 =>
        if (if b = 0xF0 then 0x90 else 0x80) ≤ b2 ∧
            b2 ≤ (if b = 0xF4 then 0x8F else 0xBF) ∧
            0x80 ≤ b3 ∧ b3 ≤ 0xBF ∧ 0x80 ≤ b4 ∧ b4 ≤ 0xBF then
          (utf8DecodeAux rest4).map
            (fun cs =>
              Char.ofNat ((b - 0xF0) * 0x40000 + (b2 - 0x80) * 0x1000 +
                (b3 - 0x80) * 0x40 + (b4 - 0x80)) :: cs)
        else Except.error ()
      | _ => Except.error ()
    else Except.error ()

/-- Python `content.decode("utf8")`: the decoded text, or a raised
`UnicodeDecodeError` as `Except.error ()`. -/
def utf8Decode (bs : Bytes) : Except Unit String :=
  (utf8DecodeAux bs).map (fun cs => String.mk cs)

/-- Delivery loop of `Event.__call__` (checker.py lines 36-38): calls every
handler in registration order, with no exception handling, so it completes
normally (`true`) only if every handler does. -/
def eventOk {α : Type} (handlers : List (α → Bool)) (p : α) : Bool :=
  match handlers with
  | [] => true
  | h :: rest => h p && eventOk rest p

/-- Number of handlers actually invoked by `Event.__call__`: the `for` loop
invokes handlers in order and aborts right after the first one that raises
(the raiser itself was invoked). -/
def eventInvokedCount {α : Type} (handlers : List (α → Bool)) (p : α) : Nat :=
  match handlers with
  | [] => 0
  | h :: rest => if h p then eventInvokedCount rest p + 1 else 1

/-- Condition of checker.py line 51 on an attribute value:
`link.startswith("http") and link.lower().endswith(".bin")`, computed on the
character list (`Char.toLower` performs the ASCII case fold, which agrees
with Python `str.lower` on every character of an http URL). -/
def qualifies (link : String) : Bool :=
  List.isPrefixOf "http".data link.data &&
  List.isSuffixOf ".bin".data (link.data.map Char.toLower)

/-- Attribute loop of `Parse.handle_starttag` (checker.py lines 50-52),
threading the mutable `self.fw_link`.  The second component is `false` when
the loop raises: `name == "href" and link.startswith("http")` evaluates
`None.startswith`, an `AttributeError`, when the href attribute has no
value. -/
def handleAttrs (fw : Option String) : List Attr → Option String × Bool
  | [] => (fw, true)
  | (name, value) :: rest =>
    if name = "href" then
      match value with
      | none => (fw, false)
      | some link => handleAttrs (if qualifies link then some link else fw) rest
    else handleAttrs fw rest

/-- `Parse.handle_starttag` (checker.py lines 47-52): only anchor tags are
examined; the second component is `false` when the handler raises. -/
def handle_starttag (fw : Option String) (tag : String) (attrs : List Attr) :
    Option String × Bool :=
  if tag = "a" then handleAttrs fw attrs else (fw, true)

/-- `Parse.feed` at the granularity of start tags: the stdlib parser calls
`handle_starttag` once per start tag in document order; an exception in a
handler call propagates and aborts the feed, keeping the `fw_link` updates
made so far. -/
def feed (fw : Option String) : List Tag → Option String × Bool
  | [] => (fw, true)
  | (tag, attrs) :: rest =>
    let r := handle_starttag fw tag attrs
    if r.2 then feed r.1 rest else (r.1, false)

/-- Mutable state of the `ApUpdateChecker` instance together with its `Parse`
member: `html_parser.fw_link`, `old_hash`, `last_crawl`. -/
structure CheckerState where
  fw_link : Option String
  old_hash : Option String
  last_crawl : Option Nat
  deriving Repr, DecidableEq

/-- A notification fired during a check: `on_new_page(page_content_str)` or
`on_new_fw(self.fw_link)`. -/
inductive Notif where
  | newPage (content : String)
  | newFw (link : Option String)
  deriving Repr, DecidableEq

/-- A Python exception escaping `check_fw`. -/
inductive PyErr where
  | unicodeDecodeError
  | attributeError
  | handlerError
  deriving Repr, DecidableEq

/-- How an invocation of `check_fw` ends: a normal return carrying
`None` or the firmware link, or a propagated exception. -/
inductive Outcome where
  | ret (v : Option String)
  | raised (e : PyErr)
  deriving Repr, DecidableEq

/-- Result of one `check_fw` invocation: final state, the notifications whose
delivery was started, in order, and the outcome. -/
structure CheckRes where
  state : CheckerState
  notifs : List Notif
  outcome : Outcome
  deriving Repr, DecidableEq

/-- `ApUpdateChecker.check_fw` (checker.py lines 68-107).  `hashFn` stands for
`hashlib.sha256(content).hexdigest()`, `tokenize` for the stdlib HTML
tokenization of the decoded text into start tags, `status`/`content` for the
`requests.get` response, `now` for `datetime.now()`.  `pageHandlers` and
`fwHandlers` are the registered callbacks of `on_new_page` and `on_new_fw`. -/
def check_fw (hashFn : Bytes → String) (tokenize : String → List Tag)
    (pageHandlers : List (String → Bool)) (fwHandlers : List (Option String → Bool))
    (st : CheckerState) (status : Nat) (content : Bytes) (now : Nat) : CheckRes :=
  if status ≠ 200 then
    -- non-200: print and `return None`, state untouched
    ⟨st, [], Outcome.ret none⟩
  else
    -- `self.last_crawl = datetime.now()`
    let st1 : CheckerState := { st with last_crawl := some now }
    -- `page_content_str = resp.content.decode(utf8)`
    match utf8Decode content with
    | Except.error _ => ⟨st1, [], Outcome.raised PyErr.unicodeDecodeError⟩
    | Except.ok page =>
      match st.old_hash with
      | none =>
        -- no previous hash: store it, gather the current firmware link
        let st2 : CheckerState := { st1 with old_hash := some (hashFn content) }
        let fr := feed st2.fw_link (tokenize page)
        let st3 : CheckerState := { st2 with fw_link := fr.1 }
        if fr.2 then ⟨st3, [], Outcome.ret none⟩
        else ⟨st3, [], Outcome.raised PyErr.attributeError⟩
      | some h0 =>
        if hashFn content = h0 then
          -- hash matches: fall through the elif, `return None`
          ⟨st1, [], Outcome.ret none⟩
        else
          -- hash differs: commit it, then `self.on_new_page(page_content_str)`
          let st2 : CheckerState := { st1 with old_hash := some (hashFn content) }
          if eventOk pageHandlers page then
            let old_fw := st2.fw_link
            let fr := feed st2.fw_link (tokenize page)
            let st3 : CheckerState := { st2 with fw_link := fr.1 }
            if fr.2 then
              if old_fw ≠ fr.1 then
                -- `self.on_new_fw(self.fw_link)` then `return self.fw_link`
                if eventOk fwHandlers fr.1 then
                  ⟨st3, [Notif.newPage page, Notif.newFw fr.1], Outcome.ret fr.1⟩
                else
                  ⟨st3, [Notif.newPage page, Notif.newFw fr.1],
                    Outcome.raised PyErr.handlerError⟩
              else ⟨st3, [Notif.newPage page], Outcome.ret none⟩
            else ⟨st3, [Notif.newPage page], Outcome.raised PyErr.attributeError⟩
          else ⟨st2, [Notif.newPage page], Outcome.raised PyErr.handlerError⟩

/-- First argument if present, otherwise the second: used to state that the
parser keeps its previous `fw_link` when a feed finds no qualifying link. -/
def lastOr (lq fw : Option String) : Option String :=
  match lq with
  | some l => some l
  | none => fw

/-- Specification-side reading of the attribute loop: the last qualifying
href value of an attribute list, if any (later attributes override earlier
ones). -/
def attrsLastQual : List Attr → Option String
  | [] => none
  | (name, value) :: rest =>
    match attrsLastQual rest with
    | some l => some l
    | none =>
      if name = "href" then
        match value with
        | some link => if qualifies link then some link else none
        | none => none
      else none

/-- Specification-side reading of one start tag: its last qualifying link,
if any (only anchor tags contribute). -/
def tagLastQual : Tag → Option String
  | (tag, attrs) => if tag = "a" then attrsLastQual attrs else none

/-- Specification-side reading of a tag stream: the last qualifying link in
document order, if any. -/
def lastQual : List Tag → Option String
  | [] => none
  | t :: rest => lastOr (lastQual rest) (tagLastQual t)

/-- Whether the attribute loop raises: it does exactly when some href
attribute has no value (then `link.startswith` is `None.startswith`). -/
def attrsRaise : List Attr → Bool
  | [] => false
  | (name, value) :: rest =>
    if name = "href" ∧ value = none then true else attrsRaise rest

/-- Whether processing one start tag raises. -/
def tagRaises : Tag → Bool
  | (tag, attrs) => if tag = "a" then attrsRaise attrs else false

/-- Whether processing some tag of the stream raises. -/
def anyRaises : List Tag → Bool
  | [] => false
  | t :: rest => tagRaises t || anyRaises rest

theorem lastOr_none_right (lq : Option String) : lastOr lq none = lq := by
  cases lq <;> rfl

theorem lastOr_assoc (a b c : Option String) :
    lastOr a (lastOr b c) = lastOr (lastOr a b) c := by
  cases a <;> cases b <;> rfl

theorem handleAttrs_eq_lastQual (attrs : List Attr) (fw : Option String)
    (h : attrsRaise attrs = false) :
    handleAttrs fw attrs = (lastOr (attrsLastQual attrs) fw, true) := by
  induction attrs generalizing fw with
  | nil => rfl
  | cons a rest ih =>
    obtain ⟨name, value⟩ := a
    by_cases hn : name = "href"
    · cases value with
      | none => simp [attrsRaise, hn] at h
      | some link =>
        have hrest : attrsRaise rest = false := by
          simpa [attrsRaise, hn] using h
        simp only [handleAttrs]
        rw [if_pos hn, ih _ hrest]
        cases hq : attrsLastQual rest with
        | some l => simp [attrsLastQual, hn, hq, lastOr]
        | none =>
          by_cases hql : qualifies link = true
          · simp [attrsLastQual, hn, hq, hql, lastOr]
          · simp [attrsLastQual, hn, hq, hql, lastOr, Bool.not_eq_true] at *
    · have hrest : attrsRaise rest = false := by
        simpa [attrsRaise, hn] using h
      simp only [handleAttrs]
      rw [if_neg hn, ih _ hrest]
      cases hq : attrsLastQual rest <;> simp [attrsLastQual, hn, hq, lastOr]

theorem handle_starttag_eq_lastQual (tag : String) (attrs : List Attr)
    (fw : Option String) (h : tagRaises (tag, attrs) = false) :
    handle_starttag fw tag attrs = (lastOr (tagLastQual (tag, attrs)) fw, true) := by
  by_cases ht : tag = "a"
  · have hattrs : attrsRaise attrs = false := by simpa [tagRaises, ht] using h
    rw [handle_starttag, if_pos ht, handleAttrs_eq_lastQual attrs fw hattrs]
    simp [tagLastQual, ht]
  · rw [handle_starttag, if_neg ht]
    simp [tagLastQual, ht, lastOr]

/-- When no tag of the stream raises, `feed` completes normally and the
resulting `fw_link` is the last qualifying link of the stream in document
order, or the previous `fw_link` when the stream has none. -/
theorem feed_eq_lastQual (tags : List Tag) (fw : Option String)
    (h : anyRaises tags = false) :
    feed fw tags = (lastOr (lastQual tags) fw, true) := by
  induction tags generalizing fw with
  | nil => rfl
  | cons t rest ih =>
    obtain ⟨tag, attrs⟩ := t
    have ht : tagRaises (tag, attrs) = false := by
      have := h
      simp [anyRaises, Bool.or_eq_false_iff] at this
      exact this.1
    have hrest : anyRaises rest = false := by
      have := h
      simp [anyRaises, Bool.or_eq_false_iff] at this
      exact this.2
    simp only [feed]
    rw [handle_starttag_eq_lastQual tag attrs fw ht]
    simp only [if_true, ih _ hrest, lastQual, lastOr_assoc]

theorem handleAttrs_raises (attrs : List Attr) (fw : Option String)
    (h : attrsRaise attrs = true) : (handleAttrs fw attrs).2 = false := by
  induction attrs generalizing fw with
  | nil => simp [attrsRaise] at h
  | cons a rest ih =>
    obtain ⟨name, value⟩ := a
    by_cases hn : name = "href"
    · cases value with
      | none => simp [handleAttrs, hn]
      | some link =>
        have hrest : attrsRaise rest = true := by simpa [attrsRaise, hn] using h
        simp [handleAttrs, hn, ih _ hrest]
    · have hrest : attrsRaise rest = true := by simpa [attrsRaise, hn] using h
      simp [handleAttrs, hn, ih _ hrest]

/-- C1 counterexample: with two callbacks registered on an `Event` where the
first one raises (modelled as returning `false`), `Event.__call__` invokes
only one of the two callbacks, not both — the bare `for` loop of checker.py
line 37 has no per-callback exception handling, so the claim that every
subsequently registered callback is still invoked in the same cycle is
false. -/
theorem eventInvoked_counterexample :
    eventInvokedCount ([fun _ => false, fun _ => true] : List (Nat → Bool)) 0 ≠
      ([fun _ => false, fun _ => true] : List (Nat → Bool)).length := by
  decide

/-- C1 (amended): when a callback raises during `Event.__call__`, the
callbacks registered before it have already been invoked and the raiser
itself was invoked, but every callback registered after it is not invoked
(the invoked count stops at the raiser) and the exception propagates out of
the delivery loop into `check_fw`. -/
theorem eventInvoked_stops_at_raiser {α : Type} (pre : List (α → Bool))
    (h : α → Bool) (post : List (α → Bool)) (p : α)
    (hpre : ∀ g ∈ pre, g p = true) (hh : h p = false) :
    eventInvokedCount (pre ++ h :: post) p = pre.length + 1 ∧
    eventOk (pre ++ h :: post) p = false := by
  induction pre with
  | nil => simp [eventInvokedCount, eventOk, hh]
  | cons g rest ih =>
    have hg : g p = true := hpre g (by simp)
    have hrest : ∀ g2 ∈ rest, g2 p = true := fun g2 hg2 => hpre g2 (by simp [hg2])
    obtain ⟨ih1, ih2⟩ := ih hrest
    constructor
    · simp [eventInvokedCount, hg, ih1]
    · simp [eventOk, hg, ih2]

/-- C1 witness: three callbacks, the middle one raising — exactly the first
two are invoked and the delivery loop raises. -/
theorem eventInvoked_stops_at_raiser_witness :
    eventInvokedCount
        ([fun _ => true, fun _ => false, fun _ => true] : List (Nat → Bool)) 0 = 2 ∧
    eventOk ([fun _ => true, fun _ => false, fun _ => true] : List (Nat → Bool)) 0 =
      false := by
  have h := eventInvoked_stops_at_raiser ([fun _ => true] : List (Nat → Bool))
    (fun _ => false) ([fun _ => true]) 0
    (by intro g hg; simp at hg; subst hg; rfl) rfl
  simpa using h

/-- C4: among the start tags of the markup, when no handler call raises and
the last qualifying hyperlink in document order is `B`, the feed ends with
`fw_link = B` — later qualifying links override earlier ones. -/
theorem feed_last_wins (fw : Option String) (tags : List Tag) (B : String)
    (hraise : anyRaises tags = false) (hlast : lastQual tags = some B) :
    feed fw tags = (some B, true) := by
  rw [feed_eq_lastQual tags fw hraise, hlast]
  rfl

/-- C4 witness: markup with qualifying links `A` then `B` extracts `B`. -/
theorem feed_last_wins_witness :
    lastQual [("a", [("href", some "http://x/A.bin")]),
        ("a", [("href", some "http://x/B.bin")])] = some "http://x/B.bin" ∧
    feed none [("a", [("href", some "http://x/A.bin")]),
        ("a", [("href", some "http://x/B.bin")])] = (some "http://x/B.bin", true) := by
  refine ⟨by decide, ?_⟩
  exact feed_last_wins none
    [("a", [("href", some "http://x/A.bin")]), ("a", [("href", some "http://x/B.bin")])]
    "http://x/B.bin" (by decide) (by decide)

/-- C9 counterexample: an anchor tag whose `href` attribute has no value
(HTML `<a href>`, reported by the stdlib tokenizer as value `None`) makes
`handle_starttag` raise — `link.startswith("http")` is `None.startswith` —
instead of being skipped; the second component `false` records the
propagated `AttributeError`, refuting the claim that malformed tags are
skipped without throwing. -/
theorem handle_starttag_raises_counterexample :
    (handle_starttag (some "http://x/old.bin") "a" [("href", none)]).2 = false := by
  decide

/-- C9 (amended): a hyperlink qualifies exactly when its `href` value is
present, begins with `http` (case-sensitively), and ends case-insensitively
in `.bin`; non-anchor tags and anchor tags whose attributes all carry values
are processed without raising (non-qualifying ones leave `fw_link`
untouched), but an anchor tag with a valueless `href` attribute raises an
`AttributeError` instead of being skipped. -/
theorem handle_starttag_characterization (fw : Option String) (tag : String)
    (attrs : List Attr) :
    (tag ≠ "a" → handle_starttag fw tag attrs = (fw, true)) ∧
    (tagRaises (tag, attrs) = false →
      handle_starttag fw tag attrs = (lastOr (tagLastQual (tag, attrs)) fw, true)) ∧
    (tag = "a" → attrsRaise attrs = true →
      (handle_starttag fw tag attrs).2 = false) := by
  refine ⟨fun ht => ?_, fun hr => handle_starttag_eq_lastQual tag attrs fw hr,
    fun ht hr => ?_⟩
  · rw [handle_starttag, if_neg ht]
  · rw [handle_starttag, if_pos ht]
    exact handleAttrs_raises attrs fw hr

/-- C9 witness: a non-anchor tag is skipped; an anchor tag with a valued
qualifying `href` (uppercase `.BIN` suffix) updates `fw_link`; an anchor tag
with a valueless `href` raises. -/
theorem handle_starttag_characterization_witness :
    handle_starttag none "b" [("href", some "http://x/f.bin")] = (none, true) ∧
    handle_starttag none "a" [("href", some "http://x/F.BIN")] =
      (some "http://x/F.BIN", true) ∧
    (handle_starttag none "a" [("id", some "x"), ("href", none)]).2 = false := by
  refine ⟨?_, ?_, ?_⟩
  · exact (handle_starttag_characterization none "b"
      [("href", some "http://x/f.bin")]).1 (by decide)
  · have h := (handle_starttag_characterization none "a"
      [("href", some "http://x/F.BIN")]).2.1 (by decide)
    rw [h]
    decide
  · exact (handle_starttag_characterization none "a"
      [("id", some "x"), ("href", none)]).2.2 rfl (by decide)

/-- C6: when the fetch completes with a non-success status, `check_fw`
returns `None` immediately, fires no notifications, and leaves the whole
state — stored fingerprint, stored artifact link, and `last_crawl` — exactly
as it was, so any later invocation behaves as if the failed check had never
happened. -/
theorem check_fw_fetchFailed (hashFn : Bytes → String) (tokenize : String → List Tag)
    (ph : List (String → Bool)) (fh : List (Option String → Bool))
    (st : CheckerState) (status : Nat) (content : Bytes) (now : Nat)
    (hst : status ≠ 200) :
    check_fw hashFn tokenize ph fh st status content now = ⟨st, [], Outcome.ret none⟩ ∧
    ∀ (hashFn2 : Bytes → String) (tokenize2 : String → List Tag)
      (ph2 : List (String → Bool)) (fh2 : List (Option String → Bool))
      (status2 : Nat) (content2 : Bytes) (now2 : Nat),
      check_fw hashFn2 tokenize2 ph2 fh2
        (check_fw hashFn tokenize ph fh st status content now).state
        status2 content2 now2 =
      check_fw hashFn2 tokenize2 ph2 fh2 st status2 content2 now2 := by
  have h1 : check_fw hashFn tokenize ph fh st status content now =
      ⟨st, [], Outcome.ret none⟩ := by
    rw [check_fw, if_pos hst]
  exact ⟨h1, fun _ _ _ _ _ _ _ => by rw [h1]⟩

/-- C6 witness: a 404 response leaves a populated state untouched, and the
following successful check compares against the pre-failure baseline. -/
theorem check_fw_fetchFailed_witness :
    check_fw (fun _ => "h") (fun _ => []) [] []
        ⟨some "http://x/fw1.bin", some "H", some 1⟩ 404 [0] 9 =
      ⟨⟨some "http://x/fw1.bin", some "H", some 1⟩, [], Outcome.ret none⟩ ∧
    check_fw (fun _ => "h") (fun _ => []) [] []
        (check_fw (fun _ => "h") (fun _ => []) [] []
          ⟨some "http://x/fw1.bin", some "H", some 1⟩ 404 [0] 9).state 200 [104] 10 =
      check_fw (fun _ => "h") (fun _ => []) [] []
        ⟨some "http://x/fw1.bin", some "H", some 1⟩ 200 [104] 10 := by
  have h := check_fw_fetchFailed (fun _ => "h") (fun _ => []) [] []
    ⟨some "http://x/fw1.bin", some "H", some 1⟩ 404 [0] 9 (by decide)
  exact ⟨h.1, h.2 (fun _ => "h") (fun _ => []) [] [] 200 [104] 10⟩

/-- C10: a 200 response whose body is not valid UTF-8 makes `check_fw` raise
`UnicodeDecodeError` after `self.last_crawl` was already updated but before
the fingerprint is hashed or stored and before any notification fires: the
timestamp advances while `old_hash` and `fw_link` keep their prior values —
the state update of a failing check is not atomic. -/
theorem check_fw_decode_raises (hashFn : Bytes → String)
    (tokenize : String → List Tag) (ph : List (String → Bool))
    (fh : List (Option String → Bool)) (st : CheckerState) (status : Nat)
    (content : Bytes) (now : Nat)
    (hst : status = 200) (hdec : utf8Decode content = Except.error ()) :
    check_fw hashFn tokenize ph fh st status content now =
      ⟨⟨st.fw_link, st.old_hash, some now⟩, [],
        Outcome.raised PyErr.unicodeDecodeError⟩ := by
  subst hst
  simp [check_fw, hdec]

/-- C10 witness: the single byte `0xFF` is not decodable as UTF-8; the check
raises, the timestamp moves from 1 to 9, and fingerprint and link survive. -/
theorem check_fw_decode_raises_witness :
    utf8Decode [255] = Except.error () ∧
    check_fw (fun _ => "h") (fun _ => []) [] []
        ⟨some "http://x/fw1.bin", some "H", some 1⟩ 200 [255] 9 =
      ⟨⟨some "http://x/fw1.bin", some "H", some 9⟩, [],
        Outcome.raised PyErr.unicodeDecodeError⟩ := by
  refine ⟨rfl, ?_⟩
  exact check_fw_decode_raises (fun _ => "h") (fun _ => []) [] []
    ⟨some "http://x/fw1.bin", some "H", some 1⟩ 200 [255] 9 rfl rfl

/-- C5: on the first successful check (no stored fingerprint), provided the
body decodes and the markup parses without raising, `check_fw` stores the
fingerprint and the freshly extracted link, fires no notifications, and
returns `None` — the no-baseline outcome. -/
theorem check_fw_noBaseline (hashFn : Bytes → String) (tokenize : String → List Tag)
    (ph : List (String → Bool)) (fh : List (Option String → Bool))
    (st : CheckerState) (status : Nat) (content : Bytes) (now : Nat) (page : String)
    (hst : status = 200) (hdec : utf8Decode content = Except.ok page)
    (hold : st.old_hash = none)
    (hfeed : (feed st.fw_link (tokenize page)).2 = true) :
    check_fw hashFn tokenize ph fh st status content now =
      ⟨⟨(feed st.fw_link (tokenize page)).1, some (hashFn content), some now⟩,
        [], Outcome.ret none⟩ := by
  subst hst
  simp [check_fw, hdec, hold, hfeed]

/-- C5 witness: a first check against markup carrying one qualifying link
stores the hash and that link, fires nothing, and returns `None`. -/
theorem check_fw_noBaseline_witness :
    utf8Decode [104, 105] = Except.ok "hi" ∧
    check_fw (fun _ => "h") (fun _ => [("a", [("href", some "http://x/fw1.bin")])])
        [] [] ⟨none, none, none⟩ 200 [104, 105] 3 =
      ⟨⟨some "http://x/fw1.bin", some "h", some 3⟩, [], Outcome.ret none⟩ := by
  refine ⟨rfl, ?_⟩
  have h := check_fw_noBaseline (fun _ => "h")
    (fun _ => [("a", [("href", some "http://x/fw1.bin")])]) [] []
    ⟨none, none, none⟩ 200 [104, 105] 3 "hi" rfl rfl rfl (by decide)
  rw [h]
  decide

/-- C7: when the computed fingerprint equals the stored one, `check_fw`
fires no notifications, returns `None`, and leaves the state untouched
except for the timestamp; repeating the check against the same bytes is
idempotent — the second run again changes only the timestamp. -/
theorem check_fw_unchanged (hashFn : Bytes → String) (tokenize : String → List Tag)
    (ph : List (String → Bool)) (fh : List (Option String → Bool))
    (st : CheckerState) (status : Nat) (content : Bytes) (now now2 : Nat)
    (page : String)
    (hst : status = 200) (hdec : utf8Decode content = Except.ok page)
    (hold : st.old_hash = some (hashFn content)) :
    check_fw hashFn tokenize ph fh st status content now =
      ⟨⟨st.fw_link, st.old_hash, some now⟩, [], Outcome.ret none⟩ ∧
    check_fw hashFn tokenize ph fh
      (check_fw hashFn tokenize ph fh st status content now).state
      status content now2 =
      ⟨⟨st.fw_link, st.old_hash, some now2⟩, [], Outcome.ret none⟩ := by
  subst hst
  have h1 : check_fw hashFn tokenize ph fh st 200 content now =
      ⟨⟨st.fw_link, st.old_hash, some now⟩, [], Outcome.ret none⟩ := by
    simp [check_fw, hdec, hold]
  refine ⟨h1, ?_⟩
  rw [h1]
  simp [check_fw, hdec, hold]

/-- C7 witness: with the stored hash equal to the hash of the fetched bytes,
two consecutive checks only move the timestamp and fire nothing. -/
theorem check_fw_unchanged_witness :
    check_fw (fun _ => "H") (fun _ => []) [] []
        ⟨some "http://x/fw1.bin", some "H", some 1⟩ 200 [104] 5 =
      ⟨⟨some "http://x/fw1.bin", some "H", some 5⟩, [], Outcome.ret none⟩ ∧
    check_fw (fun _ => "H") (fun _ => []) [] []
        (check_fw (fun _ => "H") (fun _ => []) [] []
          ⟨some "http://x/fw1.bin", some "H", some 1⟩ 200 [104] 5).state
        200 [104] 6 =
      ⟨⟨some "http://x/fw1.bin", some "H", some 6⟩, [], Outcome.ret none⟩ := by
  exact check_fw_unchanged (fun _ => "H") (fun _ => []) [] []
    ⟨some "http://x/fw1.bin", some "H", some 1⟩ 200 [104] 5 6 "h" rfl rfl rfl

/-- C2 counterexample: a check in which the fingerprint differs (`h2` vs
stored `h1`), a link was previously known, and the newly fetched markup
contains zero qualifying hyperlinks does NOT make the stored artifact link
absent: the `Parse` instance is created once and `handle_starttag` only ever
overwrites `fw_link`, so feeding link-free markup leaves the old link in
place — `fw_link` stays `some "http://x/fw1.bin"` instead of becoming
`none`. -/
theorem link_absent_counterexample :
    ("h2" : String) ≠ "h1" ∧
    lastQual ([] : List Tag) = none ∧
    (check_fw (fun _ => "h2") (fun _ => []) [] []
        ⟨some "http://x/fw1.bin", some "h1", some 1⟩ 200 [] 9).state.fw_link =
      some "http://x/fw1.bin" := by
  refine ⟨by decide, rfl, by decide⟩

/-- C2 (amended): when the fingerprint differs and the new markup contains
zero qualifying hyperlinks while a link was previously known, the stored
artifact link RETAINS its previous value (the parser never resets
`fw_link`); the cycle completes without error as a page-changed-only check:
one `PageChanged` notification, no `ArtifactChanged`, and a `None` return. -/
theorem check_fw_link_retained (hashFn : Bytes → String)
    (tokenize : String → List Tag) (ph : List (String → Bool))
    (fh : List (Option String → Bool)) (st : CheckerState) (status : Nat)
    (content : Bytes) (now : Nat) (page : String) (h0 oldLink : String)
    (hst : status = 200) (hdec : utf8Decode content = Except.ok page)
    (hold : st.old_hash = some h0) (hne : hashFn content ≠ h0)
    (hq : lastQual (tokenize page) = none)
    (hraise : anyRaises (tokenize page) = false)
    (hprev : st.fw_link = some oldLink) (hp : eventOk ph page = true) :
    check_fw hashFn tokenize ph fh st status content now =
      ⟨⟨some oldLink, some (hashFn content), some now⟩, [Notif.newPage page],
        Outcome.ret none⟩ := by
  subst hst
  have hfeed : feed (some oldLink) (tokenize page) = (some oldLink, true) := by
    have h2 := feed_eq_lastQual (tokenize page) (some oldLink) hraise
    rw [hq] at h2
    exact h2
  simp [check_fw, hdec, hold, hne, hp, hprev, hfeed]

/-- C2 witness: page changed to link-free markup; the previously known link
`fw1.bin` is retained and only `PageChanged` fires. -/
theorem check_fw_link_retained_witness :
    utf8Decode [104] = Except.ok "h" ∧
    check_fw (fun _ => "h2") (fun _ => []) [] []
        ⟨some "http://x/fw1.bin", some "h1", some 1⟩ 200 [104] 9 =
      ⟨⟨some "http://x/fw1.bin", some "h2", some 9⟩, [Notif.newPage "h"],
        Outcome.ret none⟩ := by
  refine ⟨rfl, ?_⟩
  exact check_fw_link_retained (fun _ => "h2") (fun _ => []) [] []
    ⟨some "http://x/fw1.bin", some "h1", some 1⟩ 200 [104] 9 "h" "h1"
    "http://x/fw1.bin" rfl rfl rfl (by decide) rfl rfl rfl rfl

/-- C8: when the fingerprint and the extracted link both differ from the
stored values, exactly the two notifications `PageChanged` then
`ArtifactChanged` fire in that order in the single invocation, and state is
committed before the corresponding notification fires: even if delivery of
`PageChanged` raises, the new fingerprint is already stored (and `fw_link`
still untouched, since re-extraction had not happened yet); even if delivery
of `ArtifactChanged` raises, the new link is already stored. -/
theorem check_fw_artifactChanged (hashFn : Bytes → String)
    (tokenize : String → List Tag) (ph : List (String → Bool))
    (fh : List (Option String → Bool)) (st : CheckerState) (status : Nat)
    (content : Bytes) (now : Nat) (page : String) (h0 : String)
    (hst : status = 200) (hdec : utf8Decode content = Except.ok page)
    (hold : st.old_hash = some h0) (hne : hashFn content ≠ h0)
    (hfeed : (feed st.fw_link (tokenize page)).2 = true)
    (hdiff : st.fw_link ≠ (feed st.fw_link (tokenize page)).1) :
    (eventOk ph page = true →
      eventOk fh (feed st.fw_link (tokenize page)).1 = true →
      check_fw hashFn tokenize ph fh st status content now =
        ⟨⟨(feed st.fw_link (tokenize page)).1, some (hashFn content), some now⟩,
          [Notif.newPage page, Notif.newFw (feed st.fw_link (tokenize page)).1],
          Outcome.ret (feed st.fw_link (tokenize page)).1⟩) ∧
    (eventOk ph page = false →
      check_fw hashFn tokenize ph fh st status content now =
        ⟨⟨st.fw_link, some (hashFn content), some now⟩, [Notif.newPage page],
          Outcome.raised PyErr.handlerError⟩) ∧
    (eventOk ph page = true →
      eventOk fh (feed st.fw_link (tokenize page)).1 = false →
      check_fw hashFn tokenize ph fh st status content now =
        ⟨⟨(feed st.fw_link (tokenize page)).1, some (hashFn content), some now⟩,
          [Notif.newPage page, Notif.newFw (feed st.fw_link (tokenize page)).1],
          Outcome.raised PyErr.handlerError⟩) := by
  subst hst
  refine ⟨fun hp hf => ?_, fun hp => ?_, fun hp hf => ?_⟩
  · simp [check_fw, hdec, hold, hne, hfeed, hdiff, hp, hf]
  · simp [check_fw, hdec, hold, hne, hp]
  · simp [check_fw, hdec, hold, hne, hfeed, hdiff, hp, hf]

/-- C8 witness: page hash moves from `h1` to `h2` and the link from
`fw1.bin` to `fw2.bin`; with all handlers completing, both notifications
fire in order and the new link is both stored and returned. -/
theorem check_fw_artifactChanged_witness :
    check_fw (fun _ => "h2") (fun _ => [("a", [("href", some "http://x/fw2.bin")])])
        [fun _ => true] [fun _ => true]
        ⟨some "http://x/fw1.bin", some "h1", some 1⟩ 200 [104] 9 =
      ⟨⟨some "http://x/fw2.bin", some "h2", some 9⟩,
        [Notif.newPage "h", Notif.newFw (some "http://x/fw2.bin")],
        Outcome.ret (some "http://x/fw2.bin")⟩ := by
  have h := (check_fw_artifactChanged (fun _ => "h2")
    (fun _ => [("a", [("href", some "http://x/fw2.bin")])])
    [fun _ => true] [fun _ => true]
    ⟨some "http://x/fw1.bin", some "h1", some 1⟩ 200 [104] 9 "h" "h1"
    rfl rfl rfl (by decide) (by decide) (by decide)).1 (by decide) (by decide)
  rw [h]
  decide

set_option maxRecDepth 8000

/-- C3: an invocation of `check_fw` returns a firmware link exactly when the
fetch succeeded, the body decoded, the fingerprint differs from the stored
one, every notification callback completed, the parse did not raise, and the
re-extracted link differs from the stored one — and the returned link is the
re-extracted one; every other completed outcome (non-200 fetch, first
baseline, unchanged fingerprint, page changed with identical link) returns
`None`, and no other path returns a link. -/
theorem check_fw_result_characterization (hashFn : Bytes → String)
    (tokenize : String → List Tag) (ph : List (String → Bool))
    (fh : List (Option String → Bool)) (st : CheckerState) (status : Nat)
    (content : Bytes) (now : Nat) (l : String) :
    (check_fw hashFn tokenize ph fh st status content now).outcome =
        Outcome.ret (some l) ↔
      (status = 200 ∧ ∃ page, utf8Decode content = Except.ok page ∧
        (∃ h0, st.old_hash = some h0 ∧ hashFn content ≠ h0) ∧
        eventOk ph page = true ∧
        (feed st.fw_link (tokenize page)).2 = true ∧
        st.fw_link ≠ (feed st.fw_link (tokenize page)).1 ∧
        eventOk fh (feed st.fw_link (tokenize page)).1 = true ∧
        (feed st.fw_link (tokenize page)).1 = some l) := by
  constructor
  · intro hr
    by_cases hst : status = 200
    · subst hst
      cases hdec : utf8Decode content with
      | error e => simp [check_fw, hdec] at hr
      | ok page =>
        cases hold : st.old_hash with
        | none =>
          cases hfeed : (feed st.fw_link (tokenize page)).2 <;>
            simp [check_fw, hdec, hold, hfeed] at hr
        | some h0 =>
          by_cases hne : hashFn content = h0
          · simp [check_fw, hdec, hold, hne] at hr
          · cases hp : eventOk ph page with
            | false => simp [check_fw, hdec, hold, hne, hp] at hr
            | true =>
              cases hfeed : (feed st.fw_link (tokenize page)).2 with
              | false => simp [check_fw, hdec, hold, hne, hp, hfeed] at hr
              | true =>
                by_cases hdiff : st.fw_link = (feed st.fw_link (tokenize page)).1
                · simp [check_fw, hdec, hold, hne, hp, hfeed, ← hdiff] at hr
                · cases hf : eventOk fh (feed st.fw_link (tokenize page)).1 with
                  | false =>
                    simp [check_fw, hdec, hold, hne, hp, hfeed, hdiff, hf] at hr
                  | true =>
                    have hl : (feed st.fw_link (tokenize page)).1 = some l := by
                      simpa [check_fw, hdec, hold, hne, hp, hfeed, hdiff, hf] using hr
                    exact ⟨rfl, page, rfl, ⟨h0, rfl, hne⟩, hp, hfeed, hdiff, hf, hl⟩
    · simp [check_fw, hst] at hr
  · rintro ⟨hst, page, hdec, ⟨h0, hold, hne⟩, hp, hfeed, hdiff, hf, hl⟩
    subst hst
    rw [hl] at hdiff hf
    simp [check_fw, hdec, hold, hne, hp, hfeed, hdiff, hf, hl]

end ApChecker
